import Mathlib

/-!
Shallow embedding of the ETL ingestion core of the OLAP data-lakehouse
repository (source file `src/etl-go/main.go`), together with theorems
settling the specification claims about it.

Conventions of the embedding:
* Go strings are modelled as `String` (or `List Char` where per-character
  processing matters).  All identifier-processing code paths first collapse
  every character outside `[a-z0-9_]` to `_`, so the model restricts the
  Unicode case mapping of Go's `strings.ToLower` to its ASCII fragment
  (`goToLower`); this is exact on ASCII input and the difference on
  non-ASCII input never changes membership in `[a-z0-9_]`.
* `interface{}` values flowing through records are the tagged sum
  `GoValue`; Go's `nil` is `GoValue.vnull` and every runtime type other
  than integer/float/string falls into the type switch's `default` branch,
  modelled by `GoValue.vother`.
* `map[string]T` values are association lists with overwrite-on-insert
  (`recInsert`); Go's map iteration order is unspecified, the model fixes
  insertion order, which is irrelevant to lookups.
* Effectful functions (database `Exec`/`Query`, MinIO `PutObject`) are
  embedded by passing an environment `Env` that decides the outcome of
  each external call; a function returns the list of external actions it
  attempted (`EffAction`) together with its Go `error` result
  (`Option String`, `none` = nil error).
-/

/-- Character is an ASCII lower-case letter (`'a' ≤ r && r ≤ 'z'` in the Go source). -/
def isLowerAlpha (c : Char) : Bool := decide (97 ≤ c.toNat ∧ c.toNat ≤ 122)

/-- Character is an ASCII digit (`'0' ≤ r && r ≤ '9'` in the Go source). -/
def isDigitCh (c : Char) : Bool := decide (48 ≤ c.toNat ∧ c.toNat ≤ 57)

/-- Character is `'_'`. -/
def isUnderscore (c : Char) : Bool := decide (c.toNat = 95)

/-- The character class kept by the sanitizers' `strings.Map` callback:
`(r >= 'a' && r <= 'z') || (r >= '0' && r <= '9') || r == '_'`. -/
def isIdentChar (c : Char) : Bool := isLowerAlpha c || isDigitCh c || isUnderscore c

/-- ASCII fragment of Go's `strings.ToLower` character mapping (`unicode.ToLower`
restricted to ASCII, see module comment). -/
def goToLower (c : Char) : Char :=
  if 65 ≤ c.toNat ∧ c.toNat ≤ 90 then Char.ofNat (c.toNat + 32) else c

/-- The `strings.Map` callback of `SanitizeTableName` / `SanitizeColumnName`:
keep `[a-z0-9_]`, replace everything else with `'_'`. -/
def goMapRune (c : Char) : Char := if isIdentChar c then c else '_'

/-- `SanitizeTableName` / `SanitizeColumnName` from `src/etl-go/main.go`
(lines 650–695), parameterized by the role-marker character of the
prepended marker (`'t'` for tables, `'c'` for columns): lower-case, map
every character outside `[a-z0-9_]` to `'_'`, prepend `<marker>_` when the
first character is a digit or underscore, truncate to 63 characters.
(Go truncates to 63 bytes; at that point every character is ASCII, so
bytes coincide with characters.) -/
def sanitizeIdent (marker : Char) (s : List Char) : List Char :=
  let mapped := (s.map goToLower).map goMapRune
  let marked :=
    match mapped with
    | [] => mapped
    | c :: _ => if isDigitCh c || isUnderscore c then marker :: '_' :: mapped else mapped
  marked.take 63

/-- `SanitizeTableName` from `src/etl-go/main.go` (lines 650–671). -/
def SanitizeTableName (s : List Char) : List Char := sanitizeIdent 't' s

/-- `SanitizeColumnName` from `src/etl-go/main.go` (lines 674–695). -/
def SanitizeColumnName (s : List Char) : List Char := sanitizeIdent 'c' s

/-- `SanitizeTableName` on `String`. -/
def sanitizeTableNameStr (s : String) : String := String.mk (SanitizeTableName s.toList)

/-- `SanitizeColumnName` on `String`. -/
def sanitizeColumnNameStr (s : String) : String := String.mk (SanitizeColumnName s.toList)

/-- Membership in the regular language `^[a-z_][a-z0-9_]{0,62}$`. -/
def matchesIdentRegex (s : List Char) : Bool :=
  match s with
  | [] => false
  | c :: rest => (isLowerAlpha c || isUnderscore c) && rest.all isIdentChar
      && decide (rest.length ≤ 62)

theorem isIdentChar_goMapRune (c : Char) : isIdentChar (goMapRune c) = true := by
  unfold goMapRune
  split
  · assumption
  · decide

theorem goToLower_fixes_ident (c : Char) (h : isIdentChar c = true) : goToLower c = c := by
  simp only [isIdentChar, isLowerAlpha, isDigitCh, isUnderscore, Bool.or_eq_true,
    decide_eq_true_eq] at h
  unfold goToLower
  rw [if_neg]
  omega

theorem goMapRune_fixes_ident (c : Char) (h : isIdentChar c = true) : goMapRune c = c := by
  unfold goMapRune
  rw [if_pos h]

theorem sanitized_chars_ident (s : List Char) :
    ((s.map goToLower).map goMapRune).all isIdentChar = true := by
  induction s with
  | nil => rfl
  | cons c t ih => simp [isIdentChar_goMapRune, ih]

theorem map_goToLower_id (l : List Char) (h : l.all isIdentChar = true) :
    l.map goToLower = l := by
  induction l with
  | nil => rfl
  | cons c t ih =>
    simp only [List.all_cons, Bool.and_eq_true] at h
    simp [goToLower_fixes_ident c h.1, ih h.2]

theorem map_goMapRune_id (l : List Char) (h : l.all isIdentChar = true) :
    l.map goMapRune = l := by
  induction l with
  | nil => rfl
  | cons c t ih =>
    simp only [List.all_cons, Bool.and_eq_true] at h
    simp [goMapRune_fixes_ident c h.1, ih h.2]

theorem all_take_of_all (p : Char → Bool) (l : List Char) (n : Nat)
    (h : l.all p = true) : (l.take n).all p = true :=
  List.all_eq_true.mpr fun x hx => List.all_eq_true.mp h x (List.take_subset n l hx)

theorem ident_not_digit_underscore_lower (c : Char) (h : isIdentChar c = true)
    (hd : isDigitCh c = false) (hu : isUnderscore c = false) : isLowerAlpha c = true := by
  simp only [isIdentChar, isLowerAlpha, isDigitCh, isUnderscore, Bool.or_eq_true,
    decide_eq_true_eq] at h
  simp only [isDigitCh, decide_eq_false_iff_not] at hd
  simp only [isUnderscore, decide_eq_false_iff_not] at hu
  simp only [isLowerAlpha, decide_eq_true_eq]
  omega

theorem lower_not_digit (c : Char) (h : isLowerAlpha c = true) : isDigitCh c = false := by
  simp only [isLowerAlpha, decide_eq_true_eq] at h
  simp only [isDigitCh, decide_eq_false_iff_not]
  omega

theorem lower_not_underscore (c : Char) (h : isLowerAlpha c = true) :
    isUnderscore c = false := by
  simp only [isLowerAlpha, decide_eq_true_eq] at h
  simp only [isUnderscore, decide_eq_false_iff_not]
  omega

theorem lower_ident (c : Char) (h : isLowerAlpha c = true) : isIdentChar c = true := by
  simp [isIdentChar, h]

/-- Shape of the sanitizer output on nonempty input: a head character that is a
lower-case letter, followed by at most 62 identifier characters. -/
theorem sanitizeIdent_shape (marker : Char) (hm : isLowerAlpha marker = true)
    (s : List Char) (hs : s ≠ []) :
    ∃ c t, sanitizeIdent marker s = c :: t ∧ isLowerAlpha c = true ∧
      t.all isIdentChar = true ∧ t.length ≤ 62 := by
  unfold sanitizeIdent
  have hall := sanitized_chars_ident s
  cases hmap : (s.map goToLower).map goMapRune with
  | nil =>
    exfalso
    apply hs
    have hlen := congrArg List.length hmap
    simp at hlen
    exact hlen
  | cons c rest =>
    rw [hmap] at hall
    simp only [List.all_cons, Bool.and_eq_true] at hall
    simp only [hmap]
    by_cases hcase : (isDigitCh c || isUnderscore c) = true
    · rw [if_pos hcase]
      refine ⟨marker, ('_' :: c :: rest).take 62, rfl, hm, ?_, List.length_take_le 62 _⟩
      apply all_take_of_all
      simp [hall.1, hall.2]
      decide
    · rw [if_neg hcase]
      simp only [Bool.or_eq_true, not_or, Bool.not_eq_true] at hcase
      refine ⟨c, rest.take 62, rfl, ?_, all_take_of_all _ _ _ hall.2,
        List.length_take_le 62 _⟩
      exact ident_not_digit_underscore_lower c hall.1 hcase.1 hcase.2

/-- Sanitization is idempotent (for either role marker). -/
theorem sanitizeIdent_idem (marker : Char) (hm : isLowerAlpha marker = true)
    (s : List Char) :
    sanitizeIdent marker (sanitizeIdent marker s) = sanitizeIdent marker s := by
  by_cases hs : s = []
  · subst hs; rfl
  · obtain ⟨c, t, heq, hc, ht, hlen⟩ := sanitizeIdent_shape marker hm s hs
    rw [heq]
    have hcid : isIdentChar c = true := lower_ident c hc
    have hall : (c :: t).all isIdentChar = true := by simp [hcid, ht]
    unfold sanitizeIdent
    rw [map_goToLower_id _ hall, map_goMapRune_id _ hall]
    simp only
    rw [if_neg (by simp [lower_not_digit c hc, lower_not_underscore c hc])]
    exact List.take_of_length_le (by simpa using Nat.succ_le_succ hlen)

theorem sanitizeIdent_matches_regex (marker : Char) (hm : isLowerAlpha marker = true)
    (s : List Char) (hs : s ≠ []) :
    matchesIdentRegex (sanitizeIdent marker s) = true := by
  obtain ⟨c, t, heq, hc, ht, hlen⟩ := sanitizeIdent_shape marker hm s hs
  rw [heq]
  simp [matchesIdentRegex, hc, ht, hlen]

/-- C3 counterexample: on the empty string, both sanitizers return the empty
string, which does not match `^[a-z_][a-z0-9_]{0,62}$` (the pattern requires at
least one character), so the claim's "output always matches" part fails. -/
theorem sanitize_empty_violates_regex :
    SanitizeTableName [] = [] ∧ matchesIdentRegex (SanitizeTableName []) = false ∧
    SanitizeColumnName [] = [] ∧ matchesIdentRegex (SanitizeColumnName []) = false := by
  refine ⟨rfl, ?_, rfl, ?_⟩ <;> rfl

/-- C3 (amended): both identifier sanitizers are idempotent on every input, and
on every nonempty input their output matches `^[a-z_][a-z0-9_]{0,62}$`; the
empty string is mapped to the empty string, which matches no nonempty pattern. -/
theorem sanitize_idempotent_and_regex :
    (∀ s : List Char,
      SanitizeTableName (SanitizeTableName s) = SanitizeTableName s ∧
      SanitizeColumnName (SanitizeColumnName s) = SanitizeColumnName s) ∧
    (∀ s : List Char, s ≠ [] →
      matchesIdentRegex (SanitizeTableName s) = true ∧
      matchesIdentRegex (SanitizeColumnName s) = true) := by
  constructor
  · intro s
    exact ⟨sanitizeIdent_idem 't' (by decide) s, sanitizeIdent_idem 'c' (by decide) s⟩
  · intro s hs
    exact ⟨sanitizeIdent_matches_regex 't' (by decide) s hs,
      sanitizeIdent_matches_regex 'c' (by decide) s hs⟩

/-- C3 witness: the amended claim applied at the concrete input `"9Ab"`. -/
theorem sanitize_idempotent_and_regex_witness :
    SanitizeTableName (SanitizeTableName ['9', 'A', 'b']) =
      SanitizeTableName ['9', 'A', 'b'] ∧
    matchesIdentRegex (SanitizeTableName ['9', 'A', 'b']) = true :=
  ⟨(sanitize_idempotent_and_regex.1 ['9', 'A', 'b']).1,
    (sanitize_idempotent_and_regex.2 ['9', 'A', 'b'] (by decide)).1⟩

/-- `sub` is an initial segment of `hay` (helper for the substring check). -/
def startsWithL : List Char → List Char → Bool
  | [], _ => true
  | _ :: _, [] => false
  | c :: cs, d :: ds => c == d && startsWithL cs ds

/-- Go's `strings.Contains hay sub`: some suffix of `hay` starts with `sub`. -/
def hasSub (hay sub : List Char) : Bool :=
  match hay with
  | [] => startsWithL sub []
  | _ :: t => startsWithL sub hay || hasSub t sub

/-- The date heuristic of `InferColumnType` (`src/etl-go/main.go` lines 711–717):
`strings.Contains(strings.ToLower(v), "20") && len(v) >= 8`.  (Go measures
`len` in bytes; the model counts characters, which agrees on ASCII input.) -/
def isDateLikeStr (s : String) : Bool :=
  hasSub (s.toList.map goToLower) ['2', '0'] && decide (8 ≤ s.length)

/-- Tagged sum for Go `interface{}` values flowing through records:
`vint` covers the source's integer type-switch arm (`int, int8, …, uint64`),
`vfloat` the `float32, float64` arm (its numeric payload is never inspected by
the embedded functions), `vstr` the `string` arm, `vnull` Go's `nil`, and
`vother` every other runtime type (the `default` arm). -/
inductive GoValue where
  | vnull
  | vint (n : Int)
  | vfloat
  | vstr (s : String)
  | vother
  deriving DecidableEq, Repr

/-- The four flags accumulated by `InferColumnType`'s loop
(`var hasInt, hasFloat, hasString, hasDate bool`). -/
structure InferState where
  hasInt : Bool
  hasFloat : Bool
  hasString : Bool
  hasDate : Bool
  deriving DecidableEq, Repr

/-- One iteration of `InferColumnType`'s `for _, value := range values` loop
(`src/etl-go/main.go` lines 698–721): `nil` is skipped, integers set `hasInt`,
floats set `hasFloat`, date-like strings set `hasDate`, all other strings and
the `default` arm set `hasString`. -/
def inferStep (st : InferState) (v : GoValue) : InferState :=
  match v with
  | .vnull => st
  | .vint _ => { st with hasInt := true }
  | .vfloat => { st with hasFloat := true }
  | .vstr s =>
      if isDateLikeStr s then { st with hasDate := true }
      else { st with hasString := true }
  | .vother => { st with hasString := true }

/-- `InferColumnType` from `src/etl-go/main.go` (lines 698–734). -/
def InferColumnType (values : List GoValue) : String :=
  let st := values.foldl inferStep ⟨false, false, false, false⟩
  if st.hasFloat then "NUMERIC"
  else if st.hasInt && !st.hasFloat && !st.hasString then "INTEGER"
  else if st.hasDate && !st.hasString then "DATE"
  else "TEXT"

/-- Value is a floating-point value. -/
def isFloatVal : GoValue → Bool
  | .vfloat => true
  | _ => false

/-- Value is an integer value. -/
def isIntVal : GoValue → Bool
  | .vint _ => true
  | _ => false

/-- Value is a date-like text value (contains `"20"` and has length ≥ 8). -/
def isDateVal : GoValue → Bool
  | .vstr s => isDateLikeStr s
  | _ => false

/-- Value is a plain-text value: a non-date-like string, or any value of a
runtime type outside the integer/float/string arms (the `default` arm, which
the source also records as text). -/
def isPlainTextVal : GoValue → Bool
  | .vstr s => !isDateLikeStr s
  | .vother => true
  | _ => false

theorem inferStep_hasFloat (st : InferState) (v : GoValue) :
    (inferStep st v).hasFloat = (st.hasFloat || isFloatVal v) := by
  cases v with
  | vstr s =>
    simp only [inferStep, isFloatVal]
    split <;> simp
  | _ => simp [inferStep, isFloatVal]

theorem inferStep_hasInt (st : InferState) (v : GoValue) :
    (inferStep st v).hasInt = (st.hasInt || isIntVal v) := by
  cases v with
  | vstr s =>
    simp only [inferStep, isIntVal]
    split <;> simp
  | _ => simp [inferStep, isIntVal]

theorem inferStep_hasString (st : InferState) (v : GoValue) :
    (inferStep st v).hasString = (st.hasString || isPlainTextVal v) := by
  cases v with
  | vstr s =>
    simp only [inferStep, isPlainTextVal]
    split <;> simp_all
  | _ => simp [inferStep, isPlainTextVal]

theorem inferStep_hasDate (st : InferState) (v : GoValue) :
    (inferStep st v).hasDate = (st.hasDate || isDateVal v) := by
  cases v with
  | vstr s =>
    simp only [inferStep, isDateVal]
    split <;> simp_all
  | _ => simp [inferStep, isDateVal]

theorem foldl_inferStep_hasFloat (vs : List GoValue) (st : InferState) :
    (vs.foldl inferStep st).hasFloat = (st.hasFloat || vs.any isFloatVal) := by
  induction vs generalizing st with
  | nil => simp
  | cons v t ih => rw [List.foldl_cons, ih, inferStep_hasFloat]; simp [Bool.or_assoc]

theorem foldl_inferStep_hasInt (vs : List GoValue) (st : InferState) :
    (vs.foldl inferStep st).hasInt = (st.hasInt || vs.any isIntVal) := by
  induction vs generalizing st with
  | nil => simp
  | cons v t ih => rw [List.foldl_cons, ih, inferStep_hasInt]; simp [Bool.or_assoc]

theorem foldl_inferStep_hasString (vs : List GoValue) (st : InferState) :
    (vs.foldl inferStep st).hasString = (st.hasString || vs.any isPlainTextVal) := by
  induction vs generalizing st with
  | nil => simp
  | cons v t ih => rw [List.foldl_cons, ih, inferStep_hasString]; simp [Bool.or_assoc]

theorem foldl_inferStep_hasDate (vs : List GoValue) (st : InferState) :
    (vs.foldl inferStep st).hasDate = (st.hasDate || vs.any isDateVal) := by
  induction vs generalizing st with
  | nil => simp
  | cons v t ih => rw [List.foldl_cons, ih, inferStep_hasDate]; simp [Bool.or_assoc]

/-- C4: column-type inference resolves by presence priority — any float ⇒
NUMERIC; else an integer present and no float/text present ⇒ INTEGER; else a
date-like text present and no plain text present ⇒ DATE; else TEXT.  In
particular an all-integer sample infers INTEGER and adding one float to it
flips the result to NUMERIC. -/
theorem infer_column_type_priority :
    (∀ vs : List GoValue,
      InferColumnType vs =
        if vs.any isFloatVal then "NUMERIC"
        else if vs.any isIntVal && !(vs.any isFloatVal) && !(vs.any isPlainTextVal) then
          "INTEGER"
        else if vs.any isDateVal && !(vs.any isPlainTextVal) then "DATE"
        else "TEXT") ∧
    InferColumnType [GoValue.vint 1, GoValue.vint 2] = "INTEGER" ∧
    InferColumnType [GoValue.vint 1, GoValue.vint 2, GoValue.vfloat] = "NUMERIC" := by
  refine ⟨fun vs => ?_, rfl, rfl⟩
  simp only [InferColumnType, foldl_inferStep_hasFloat, foldl_inferStep_hasInt,
    foldl_inferStep_hasString, foldl_inferStep_hasDate, Bool.false_or]

/-- Insert-with-overwrite into an association list; models Go's
`record[key] = value` on a `map[string]T`. -/
def recInsert {α : Type} (r : List (String × α)) (k : String) (v : α) :
    List (String × α) :=
  match r with
  | [] => [(k, v)]
  | (k', v') :: rest => if k' = k then (k, v) :: rest else (k', v') :: recInsert rest k v

/-- Lookup in an association list; models Go's `record[key]` read (with
`none` for an absent key, where Go yields the zero value / `nil`). -/
def recLookup {α : Type} (r : List (String × α)) (k : String) : Option α :=
  match r with
  | [] => none
  | (k', v) :: rest => if k' = k then some v else recLookup rest k

/-- The record-building inner loop of `ExtractFromCSV` (`src/etl-go/main.go`
lines 442–448): `for j, header := range headers { if j < len(records[i]) {
record[header] = records[i][j] } }`.  Headers and row cells are consumed in
lockstep; once the row is exhausted the remaining iterations insert nothing,
so they are modelled by returning the accumulator.  (In the CSV path the
short-row guard is dead code: `ReadAll`'s field-count check only ever
delivers rows of the header's length, see `goCsvReadAll`.) -/
def buildRecordGo (rec : List (String × String)) :
    List String → List String → List (String × String)
  | [], _ => rec
  | _ :: _, [] => rec
  | h :: hs, v :: vs => buildRecordGo (recInsert rec h v) hs vs

/-- The record built from one data row of a delimited-text input. -/
def buildRecord (headers row : List String) : List (String × String) :=
  buildRecordGo [] headers row

/-- The record-building stage of `ExtractFromCSV` (`src/etl-go/main.go`
lines 433–451), i.e. the code that runs once `csv.ReadAll` has succeeded
and `records` is its row list.  The guard is `len(records) == 0`; otherwise
`records[0]` is the header and each later row becomes one record.  The full
extractor including `ReadAll`'s own failure (propagated unchanged at lines
428–431) is `extractFromCSVFull`; `ReadAll` only ever supplies rows of the
header's length (see `goCsvReadAll`). -/
def ExtractFromCSV (records : List (List String)) :
    Except String (List (List (String × String))) :=
  match records with
  | [] => Except.error "no data found in CSV file"
  | headers :: rest => Except.ok (rest.map (buildRecord headers))

/-- Split a character list on a separator character (auxiliary for the
delimited-text parse). -/
def splitOnChar (sep : Char) (s : List Char) : List (List Char) :=
  match s with
  | [] => [[]]
  | c :: t =>
    let r := splitOnChar sep t
    if c = sep then [] :: r
    else
      match r with
      | [] => [[c]]
      | h :: rt => (c :: h) :: rt

/-- Row and field tokenization of a quote-free, escape-free delimited input:
rows are newline-separated (blank lines are skipped, as `encoding/csv`
does), fields are comma-separated.  This is only the tokenization step of
`csv.ReadAll`; its field-count consistency check is layered on top in
`goCsvReadAll`. -/
def parseDelimited (s : String) : List (List String) :=
  ((splitOnChar (Char.ofNat 10) s.toList).filter (fun l => l ≠ [])).map
    (fun l => (splitOnChar ',' l).map String.mk)

/-- `encoding/csv`'s field-count consistency: with the default
`FieldsPerRecord = 0`, the first record fixes the expected field count and
every later record must match it. -/
def csvFieldCountOk (rows : List (List String)) : Bool :=
  match rows with
  | [] => true
  | r0 :: rest => rest.all (fun r => r.length = r0.length)

/-- Go's `csv.NewReader(file).ReadAll()` on a quote-free input (as called at
`src/etl-go/main.go` lines 427–428): tokenize, then enforce the default
field-count check — a record whose length differs from the first record's
makes `ReadAll` fail with `ErrFieldCount` (Go wraps it in a `ParseError`
reading `record on line N: wrong number of fields`; the model keeps the
unwrapped message) and `ReadAll` returns no records. -/
def goCsvReadAll (s : String) : Except String (List (List String)) :=
  let rows := parseDelimited s
  if csvFieldCountOk rows then Except.ok rows
  else Except.error "wrong number of fields"

/-- `ExtractFromCSV` from `src/etl-go/main.go` (lines 420–451) end to end on
a quote-free input (file open is the model boundary): a `ReadAll` failure is
returned as-is (lines 428–431), then the empty guard and record building
run. -/
def extractFromCSVFull (s : String) :
    Except String (List (List (String × String))) :=
  match goCsvReadAll s with
  | Except.error e => Except.error e
  | Except.ok records => ExtractFromCSV records

theorem recLookup_recInsert_self {α : Type} (r : List (String × α)) (k : String)
    (v : α) : recLookup (recInsert r k v) k = some v := by
  induction r with
  | nil => simp [recInsert, recLookup]
  | cons p rest ih =>
    obtain ⟨k', v'⟩ := p
    by_cases h : k' = k
    · simp [recInsert, recLookup, h]
    · simp [recInsert, recLookup, h, ih]

theorem recLookup_recInsert_ne {α : Type} (r : List (String × α)) (k k' : String)
    (v : α) (hne : k ≠ k') : recLookup (recInsert r k v) k' = recLookup r k' := by
  induction r with
  | nil => simp [recInsert, recLookup, hne]
  | cons p rest ih =>
    obtain ⟨k0, v0⟩ := p
    by_cases h : k0 = k
    · subst h
      simp [recInsert, recLookup, hne]
    · simp only [recInsert, if_neg h]
      by_cases h' : k0 = k'
      · simp [recLookup, h']
      · simp [recLookup, h', ih]

theorem recLookup_buildRecordGo_notmem (rec : List (String × String))
    (headers row : List String) (k : String) (h : k ∉ headers) :
    recLookup (buildRecordGo rec headers row) k = recLookup rec k := by
  induction headers generalizing rec row with
  | nil => rfl
  | cons hh hs ih =>
    simp only [List.mem_cons, not_or] at h
    cases row with
    | nil => rfl
    | cons v vs =>
      rw [buildRecordGo, ih _ _ h.2, recLookup_recInsert_ne _ _ _ _ (Ne.symm h.1)]

/-- Positional lookup through the record-building loop, generalized over the
accumulator: header `i` maps to cell `i` when the row is long enough, and is
left untouched (absent from the insertions) otherwise. -/
theorem buildRecordGo_lookup (headers : List String) (hnd : headers.Nodup) :
    ∀ (row : List String) (rec : List (String × String)) (i : Nat),
      i < headers.length →
      recLookup (buildRecordGo rec headers row) (headers.getD i "") =
        if i < row.length then some (row.getD i "") else
          recLookup rec (headers.getD i "") := by
  induction headers with
  | nil => intro row rec i hi; cases hi
  | cons hh hs ih =>
    rw [List.nodup_cons] at hnd
    intro row rec i hi
    cases row with
    | nil => simp [buildRecordGo]
    | cons v vs =>
      cases i with
      | zero =>
        simp only [List.getD_cons_zero, buildRecordGo]
        rw [recLookup_buildRecordGo_notmem _ _ _ _ hnd.1,
          recLookup_recInsert_self]
        simp
      | succ j =>
        simp only [List.getD_cons_succ, buildRecordGo]
        have hj : j < hs.length := Nat.lt_of_succ_lt_succ hi
        rw [ih hnd.2 vs (recInsert rec hh v) j hj]
        by_cases hcase : j < vs.length
        · simp [hcase]
        · have hmem : hs.getD j "" ∈ hs := by
            rw [List.getD_eq_getElem hs "" hj]
            exact List.getElem_mem hj
          have hne : hh ≠ hs.getD j "" := fun he => hnd.1 (he ▸ hmem)
          rw [if_neg hcase, recLookup_recInsert_ne _ _ _ _ hne]
          simp only [List.length_cons]
          rw [if_neg (by omega : ¬ j + 1 < vs.length + 1)]

/-- C2 counterexample: on an input whose only row is the header (zero data
rows), the extractor returns an empty record sequence with a nil error — it
does not return the "no data" error the claim requires. -/
theorem header_only_csv_yields_ok_empty :
    ExtractFromCSV [["customer_id", "customer_name"]] = Except.ok [] ∧
    ExtractFromCSV (parseDelimited "customer_id,customer_name\n") = Except.ok [] :=
  ⟨rfl, rfl⟩

/-- C2 (amended): the "no data" error is returned exactly for an input with no
rows at all; an input whose first row is a header with zero data rows after it
yields an empty record sequence and no error. -/
theorem extract_no_data_error_scope :
    (∀ headers : List String, ExtractFromCSV [headers] = Except.ok []) ∧
    ExtractFromCSV [] = Except.error "no data found in CSV file" :=
  ⟨fun _ => rfl, rfl⟩

/-- C6 counterexample: on the input `a,b\n1\n`, whose data row is shorter
than the header, the extractor fails with `ReadAll`'s field-count error — it
does not yield the record with the trailing key omitted that the claim's
sparse clause requires. -/
theorem short_row_csv_errors :
    extractFromCSVFull "a,b\n1\n" = Except.error "wrong number of fields" ∧
    extractFromCSVFull "a,b\n1\n" ≠ Except.ok [[("a", "1")]] :=
  ⟨rfl, fun h => Except.noConfusion h⟩

/-- C6 (amended): `ReadAll`'s default field-count check means the extractor
only ever sees data rows of exactly the header's length — a shorter (or
longer) row fails extraction with `ErrFieldCount` instead of yielding a
record with trailing keys omitted.  On the rows that do arrive, the
extractor yields one record per data row, mapping header `i` positionally to
cell `i` (headers distinct); the concrete input
`customer_id,customer_name\n1,John\n2,Jane\n` yields exactly the two records
of the claim, in order. -/
theorem extract_rectangular_mapping :
    (∀ (headers : List String) (rows : List (List String)) (s : String),
      goCsvReadAll s = Except.ok (headers :: rows) →
      rows.all (fun r => r.length = headers.length) = true) ∧
    (∀ (headers : List String) (rows : List (List String)),
      ∃ recs, ExtractFromCSV (headers :: rows) = Except.ok recs ∧
        recs = rows.map (buildRecord headers) ∧ recs.length = rows.length) ∧
    (∀ (headers row : List String) (i : Nat), headers.Nodup →
      i < headers.length → row.length = headers.length →
      recLookup (buildRecord headers row) (headers.getD i "") =
        some (row.getD i "")) ∧
    extractFromCSVFull "customer_id,customer_name\n1,John\n2,Jane\n" =
      Except.ok [[("customer_id", "1"), ("customer_name", "John")],
        [("customer_id", "2"), ("customer_name", "Jane")]] := by
  refine ⟨?_, fun headers rows => ⟨rows.map (buildRecord headers), rfl, rfl,
    List.length_map rows (buildRecord headers)⟩, ?_, rfl⟩
  · intro headers rows s h
    simp only [goCsvReadAll] at h
    by_cases hok : csvFieldCountOk (parseDelimited s) = true
    · rw [if_pos hok] at h
      injection h with h2
      rw [h2] at hok
      simpa [csvFieldCountOk] using hok
    · rw [if_neg hok] at h
      exact Except.noConfusion h
  · intro headers row i hnd hi hlen
    rw [buildRecord, buildRecordGo_lookup headers hnd row [] i hi,
      if_pos (by omega)]

/-- C6 witness: the positional part applied at the concrete distinct headers
`["a", "b"]` and equal-length row `["1", "2"]` at index 1, and the
field-count guarantee applied at the concrete well-formed input of the
claim. -/
theorem extract_rectangular_mapping_witness :
    recLookup (buildRecord ["a", "b"] ["1", "2"])
        ((["a", "b"] : List String).getD 1 "") =
      some ((["1", "2"] : List String).getD 1 "") ∧
    ([["1", "John"], ["2", "Jane"]] : List (List String)).all
        (fun r => r.length =
          (["customer_id", "customer_name"] : List String).length) = true :=
  ⟨extract_rectangular_mapping.2.2.1 ["a", "b"] ["1", "2"] 1 (by decide)
      (by decide) (by decide),
    extract_rectangular_mapping.1 ["customer_id", "customer_name"]
      [["1", "John"], ["2", "Jane"]]
      "customer_id,customer_name\n1,John\n2,Jane\n" rfl⟩

/-- Go's `strings.ToLower` on whole strings (ASCII fragment, see module
comment). -/
def strToLower (s : String) : String := String.mk (s.toList.map goToLower)

/-- Go's `strings.Contains` (character-wise; exact on the ASCII keyword
searches performed by the classifier). -/
def strContains (s sub : String) : Bool := hasSub s.toList sub.toList

/-- The dimension condition of `AnalyzeColumnsWithLLM` (`src/etl-go/main.go`
lines 832–836): the lower-cased column name contains one of
`name`, `desc`, `category`, `type`, `date`. -/
def hasDimKeyword (colLower : String) : Bool :=
  strContains colLower "name" || strContains colLower "desc" ||
  strContains colLower "category" || strContains colLower "type" ||
  strContains colLower "date"

/-- The fact condition of `AnalyzeColumnsWithLLM` (`src/etl-go/main.go`
lines 838–842): the lower-cased column name contains one of
`amount`, `price`, `quantity`, `count`, `total`. -/
def hasFactKeyword (colLower : String) : Bool :=
  strContains colLower "amount" || strContains colLower "price" ||
  strContains colLower "quantity" || strContains colLower "count" ||
  strContains colLower "total"

/-- `ColumnAnalysisResult` from `src/etl-go/main.go` (lines 781–786);
`dimensions` is a `map[string]string`, modelled as an association list. -/
structure ColumnAnalysisResult where
  tableName : String
  dimensions : List (String × String)
  facts : List String
  relationships : List String
  deriving DecidableEq, Repr

/-- One iteration of the classification loop of `AnalyzeColumnsWithLLM`
(`src/etl-go/main.go` lines 829–847): the dimension check comes first; only
its `else if` branch can append to `Facts`.  `col` is a
`(column_name, data_type)` catalog row. -/
def classifyStep (res : ColumnAnalysisResult) (col : String × String) :
    ColumnAnalysisResult :=
  let colLower := strToLower col.1
  if hasDimKeyword colLower then
    { res with dimensions := recInsert res.dimensions col.1 "dimension" }
  else if hasFactKeyword colLower then
    { res with facts := res.facts ++ [col.1] }
  else res

/-- The pure part of `AnalyzeColumnsWithLLM`: classify the catalog rows,
starting from the empty result (`Dimensions: make(map[string]string)`,
`Facts: []string{}`, `Relationships: []string{}`). -/
def analyzeColumnsPure (tableName : String) (columns : List (String × String)) :
    ColumnAnalysisResult :=
  columns.foldl classifyStep ⟨tableName, [], [], []⟩

theorem foldl_classifyStep_facts (cols : List (String × String))
    (res : ColumnAnalysisResult) :
    (cols.foldl classifyStep res).facts =
      res.facts ++ (cols.filter (fun c => !hasDimKeyword (strToLower c.1) &&
        hasFactKeyword (strToLower c.1))).map Prod.fst := by
  induction cols generalizing res with
  | nil => simp
  | cons c t ih =>
    rw [List.foldl_cons, ih]
    by_cases hd : hasDimKeyword (strToLower c.1) = true
    · simp [classifyStep, hd]
    · by_cases hf : hasFactKeyword (strToLower c.1) = true
      · simp [classifyStep, hd, hf, List.filter_cons]
      · simp [classifyStep, hd, hf, List.filter_cons]

theorem foldl_classifyStep_dims_mem (cols : List (String × String))
    (res : ColumnAnalysisResult) (k : String)
    (hk : hasDimKeyword (strToLower k) = true)
    (h : k ∈ cols.map Prod.fst ∨ recLookup res.dimensions k = some "dimension") :
    recLookup (cols.foldl classifyStep res).dimensions k = some "dimension" := by
  induction cols generalizing res with
  | nil =>
    rcases h with h | h
    · simp at h
    · exact h
  | cons c t ih =>
    rw [List.foldl_cons]
    by_cases hck : c.1 = k
    · apply ih
      right
      subst hck
      simp [classifyStep, hk, recLookup_recInsert_self]
    · apply ih
      rcases h with h | h
      · rcases List.mem_map.mp h with ⟨p, hp, hpk⟩
        rcases List.mem_cons.mp hp with hp | hp
        · exact absurd (hp ▸ hpk) hck
        · exact Or.inl (List.mem_map.mpr ⟨p, hp, hpk⟩)
      · right
        by_cases hd : hasDimKeyword (strToLower c.1) = true
        · simpa [classifyStep, hd, recLookup_recInsert_ne _ _ _ _ hck] using h
        · by_cases hf : hasFactKeyword (strToLower c.1) = true
          · simpa [classifyStep, hd, hf] using h
          · simpa [classifyStep, hd, hf] using h

/-- C9: the dimension-keyword check takes precedence over the fact-keyword
check — the facts list contains exactly the catalog columns whose lower-cased
name has a fact keyword and no dimension keyword, a column with a dimension
keyword always lands in the dimensions map and never in the facts list, and
concretely `type_count` (which has both `type` and `count`) is a dimension
only. -/
theorem classifier_dimension_precedence :
    (∀ (tableName : String) (cols : List (String × String)),
      (analyzeColumnsPure tableName cols).facts =
        (cols.filter (fun c => !hasDimKeyword (strToLower c.1) &&
          hasFactKeyword (strToLower c.1))).map Prod.fst) ∧
    (∀ (tableName : String) (cols : List (String × String)) (k : String),
      hasDimKeyword (strToLower k) = true → k ∈ cols.map Prod.fst →
      recLookup (analyzeColumnsPure tableName cols).dimensions k = some "dimension" ∧
      k ∉ (analyzeColumnsPure tableName cols).facts) ∧
    (analyzeColumnsPure "t" [("type_count", "integer")]).facts = [] ∧
    recLookup (analyzeColumnsPure "t" [("type_count", "integer")]).dimensions
      "type_count" = some "dimension" := by
  have hfacts : ∀ (tableName : String) (cols : List (String × String)),
      (analyzeColumnsPure tableName cols).facts =
        (cols.filter (fun c => !hasDimKeyword (strToLower c.1) &&
          hasFactKeyword (strToLower c.1))).map Prod.fst := by
    intro tableName cols
    rw [analyzeColumnsPure, foldl_classifyStep_facts]
    rfl
  refine ⟨hfacts, fun tableName cols k hk hmem => ⟨?_, ?_⟩, by rfl, by rfl⟩
  · exact foldl_classifyStep_dims_mem cols _ k hk (Or.inl hmem)
  · rw [hfacts]
    intro hin
    rcases List.mem_map.mp hin with ⟨p, hp, hpk⟩
    have := List.of_mem_filter hp
    rw [hpk] at this
    simp [hk] at this

/-- C9 witness: the dimension-precedence part applied to the concrete catalog
`[("type_count", "integer")]` — `type_count` contains both the dimension
keyword `type` and the fact keyword `count`, is recorded as a dimension, and
is absent from the facts list. -/
theorem classifier_dimension_precedence_witness :
    recLookup (analyzeColumnsPure "t" [("type_count", "integer")]).dimensions
      "type_count" = some "dimension" ∧
    "type_count" ∉ (analyzeColumnsPure "t" [("type_count", "integer")]).facts :=
  classifier_dimension_precedence.2.1 "t" [("type_count", "integer")] "type_count"
    (by decide) (by decide)

/-- One attempted external call of the pipeline: a database `Exec` with its
SQL text and bound arguments, or a MinIO `PutObject` into a bucket under an
object key. -/
inductive EffAction where
  | dbExec (sql : String) (args : List GoValue)
  | minioPut (bucket : String) (objectName : String)
  deriving DecidableEq, Repr

/-- `DataRecord = map[string]interface{}` from `src/etl-go/main.go`. -/
abbrev DataRecord := List (String × GoValue)

/-- Environment fixing the outcome of every external call: `execOutcome`
gives `db.Exec`'s error for a statement and its arguments (`none` = nil
error), `catalogOutcome` gives the result of the catalog query issued by
`AnalyzeColumnsWithLLM` for a table, `minioOutcome` gives `PutObject`'s
error for an object key. -/
structure Env where
  execOutcome : String → List GoValue → Option String
  catalogOutcome : String → Except String (List (String × String))
  minioOutcome : String → Option String

/-- `Transform` from `src/etl-go/main.go` (lines 614–627): rewrites every
string field with `fmt.Sprintf("%v", v)`, which reproduces the same string;
all other fields are untouched. -/
def Transform (data : List DataRecord) : List DataRecord :=
  data.map (fun rec => rec.map (fun kv =>
    match kv.2 with
    | GoValue.vstr s => (kv.1, GoValue.vstr s)
    | _ => kv))

/-- `LoadToMinIO` from `src/etl-go/main.go` (lines 630–647): serialize the
batch (the model takes `json.Marshal` of our finite record values as always
succeeding), then `PutObject` into the fixed bucket `"raw"` under the key
`raw/<fileName>`, returning the put's error. -/
def LoadToMinIO (env : Env) (_data : List DataRecord) (fileName : String) :
    List EffAction × Option String :=
  let objectName := "raw/" ++ fileName
  ([EffAction.minioPut "raw" objectName], env.minioOutcome objectName)

/-- One step of the column-value collection loop of `CreateTableIfNotExists`
(`columnValues[key] = append(columnValues[key], value)`). -/
def appendColValue (acc : List (String × List GoValue)) (k : String) (v : GoValue) :
    List (String × List GoValue) :=
  match acc with
  | [] => [(k, [v])]
  | (k', vs) :: rest =>
      if k' = k then (k', vs ++ [v]) :: rest else (k', vs) :: appendColValue rest k v

/-- Column-value samples gathered from a record batch, keyed by column name
(`src/etl-go/main.go` lines 746–758; Go map iteration order is unspecified,
the model fixes first-appearance order). -/
def collectColumnValues (sample : List DataRecord) : List (String × List GoValue) :=
  sample.foldl (fun acc rec => rec.foldl (fun a kv => appendColValue a kv.1 kv.2) acc) []

/-- The `CREATE TABLE IF NOT EXISTS` statement built by
`CreateTableIfNotExists` (`src/etl-go/main.go` lines 760–769): sanitized
table name, one quoted sanitized column with its inferred type per sampled
column, plus the surrogate `id SERIAL PRIMARY KEY`. -/
def createTableQuery (tableName : String) (data : List DataRecord) : String :=
  let tn := sanitizeTableNameStr tableName
  let sampleSize := if data.length > 100 then 100 else data.length
  let columnValues := collectColumnValues (data.take sampleSize)
  let columnsDef := columnValues.map (fun p =>
    "\"" ++ sanitizeColumnNameStr p.1 ++ "\" " ++ InferColumnType p.2)
  "CREATE TABLE IF NOT EXISTS " ++ tn ++ " (" ++
    String.intercalate ", " columnsDef ++ ", id SERIAL PRIMARY KEY)"

/-- `CreateTableIfNotExists` from `src/etl-go/main.go` (lines 737–778):
immediate nil on an empty batch, otherwise one DDL `Exec` whose failure is
wrapped and returned. -/
def CreateTableIfNotExists (env : Env) (tableName : String) (data : List DataRecord) :
    List EffAction × Option String :=
  if data.length = 0 then ([], none)
  else
    let query := createTableQuery tableName data
    match env.execOutcome query [] with
    | some e => ([EffAction.dbExec query []],
        some ("failed to create table " ++ sanitizeTableNameStr tableName ++ ": " ++ e))
    | none => ([EffAction.dbExec query []], none)

/-- `AnalyzeColumnsWithLLM` from `src/etl-go/main.go` (lines 789–850): read
the table's column catalog (outcome supplied by the environment), then run
the pure keyword classification over it. -/
def AnalyzeColumnsWithLLM (env : Env) (tableName : String) :
    Except String ColumnAnalysisResult :=
  match env.catalogOutcome tableName with
  | Except.error e => Except.error ("failed to get table structure: " ++ e)
  | Except.ok columns => Except.ok (analyzeColumnsPure tableName columns)

/-- `CreateStarSchemaViews` from `src/etl-go/main.go` (lines 853–878): a
classifier error aborts without issuing anything; otherwise one
`CREATE OR REPLACE VIEW <table>_star_view AS SELECT * FROM <table>` is
issued (the classifier's result is used only in a log line). -/
def CreateStarSchemaViews (env : Env) (tableName : String) :
    List EffAction × Option String :=
  match AnalyzeColumnsWithLLM env tableName with
  | Except.error e => ([], some ("failed to analyze columns with LLM: " ++ e))
  | Except.ok _analysis =>
    let viewName := tableName ++ "_star_view"
    let query := "SELECT * FROM " ++ tableName
    let createViewQuery := "CREATE OR REPLACE VIEW " ++ viewName ++ " AS " ++ query
    match env.execOutcome createViewQuery [] with
    | some e => ([EffAction.dbExec createViewQuery []],
        some ("failed to create star schema view: " ++ e))
    | none => ([EffAction.dbExec createViewQuery []], none)

/-- The target-table naming of `LoadToPostgreSQL` (`src/etl-go/main.go` line
886): `fmt.Sprintf("auto_table_%d", len(data))`. -/
def autoTableName (data : List DataRecord) : String :=
  "auto_table_" ++ toString data.length

/-- `LoadToPostgreSQL` from `src/etl-go/main.go` (lines 881–941): nil on an
empty batch; create the table (failure fatal); insert one row per record
with the column list taken from the first record (each insert's error is
only logged, the loop continues); create the star view (its error is only
logged); return nil. -/
def LoadToPostgreSQL (env : Env) (data : List DataRecord) :
    List EffAction × Option String :=
  if data.length = 0 then ([], none)
  else
    let tableName := autoTableName data
    match CreateTableIfNotExists env tableName data with
    | (cActs, some e) => (cActs, some ("failed to create table: " ++ e))
    | (cActs, none) =>
      let originalColumnNames := (data.headD []).map Prod.fst
      let sanitizedColumnNames := originalColumnNames.map sanitizeColumnNameStr
      let placeholders := (List.range sanitizedColumnNames.length).map
        (fun i => "$" ++ toString (i + 1))
      let insertQuery := "INSERT INTO " ++ tableName ++ " (" ++
        String.intercalate ", " sanitizedColumnNames ++ ") VALUES (" ++
        String.intercalate ", " placeholders ++ ")"
      let insertActs := data.map (fun record =>
        EffAction.dbExec insertQuery (originalColumnNames.map
          (fun col => (recLookup record col).getD GoValue.vnull)))
      let viewResult := CreateStarSchemaViews env tableName
      (cActs ++ insertActs ++ viewResult.1, none)

/-- `filepath.Base` for slash-separated paths without a trailing slash
(the only shape the pipeline passes). -/
def goBaseName (p : String) : String :=
  String.mk ((splitOnChar '/' p.toList).getLastD [])

/-- `ProcessETLFromFile` from `src/etl-go/main.go` (lines 944–970); the
format dispatch and per-format file extraction are the model boundary,
their combined outcome enters as `extractResult`.  An extract failure or a
MinIO failure returns immediately; otherwise the warehouse load runs and
its error is propagated. -/
def ProcessETLFromFile (env : Env) (extractResult : Except String (List DataRecord))
    (filePath : String) : List EffAction × Option String :=
  match extractResult with
  | Except.error e => ([], some ("extract failed: " ++ e))
  | Except.ok data =>
    let transformedData := Transform data
    let fileName := "raw_" ++ goBaseName filePath
    match LoadToMinIO env data fileName with
    | (mActs, some e) => (mActs, some ("load to MinIO failed: " ++ e))
    | (mActs, none) =>
      match LoadToPostgreSQL env transformedData with
      | (pActs, some e) => (mActs ++ pActs, some ("load to PostgreSQL failed: " ++ e))
      | (pActs, none) => (mActs ++ pActs, none)

/-- Environment in which every external call succeeds (catalogs are empty). -/
def allOkEnv : Env where
  execOutcome := fun _ _ => none
  catalogOutcome := fun _ => Except.ok []
  minioOutcome := fun _ => none

/-- Environment in which exactly the view-creation statement fails. -/
def envViewFails : Env where
  execOutcome := fun sql _ => if strContains sql "VIEW" then some "boom" else none
  catalogOutcome := fun _ => Except.ok []
  minioOutcome := fun _ => none

/-- Environment in which the object store is unreachable. -/
def envMinioFails : Env where
  execOutcome := fun _ _ => none
  catalogOutcome := fun _ => Except.ok []
  minioOutcome := fun _ => some "unreachable"

/-- Shape of `CreateTableIfNotExists` on a nonempty batch: exactly one DDL
statement, the generated `CREATE TABLE IF NOT EXISTS`, is attempted. -/
theorem createTable_shape (env : Env) (t : String) (data : List DataRecord)
    (h : ¬ data.length = 0) :
    ∃ err, CreateTableIfNotExists env t data =
      ([EffAction.dbExec (createTableQuery t data) []], err) := by
  unfold CreateTableIfNotExists
  rw [if_neg h]
  cases hex : env.execOutcome (createTableQuery t data) [] with
  | none => exact ⟨none, by simp [hex]⟩
  | some e =>
    exact ⟨some ("failed to create table " ++ sanitizeTableNameStr t ++ ": " ++ e),
      by simp [hex]⟩

/-- C10: loading an empty record batch is a successful no-op — both the
warehouse load and table creation return a nil error immediately, attempting
no external action at all (so no table is created, no row inserted, and no
view created). -/
theorem empty_batch_noop :
    ∀ (env : Env) (tableName : String),
      LoadToPostgreSQL env [] = ([], none) ∧
      CreateTableIfNotExists env tableName [] = ([], none) :=
  fun _ _ => ⟨rfl, rfl⟩

/-- C8: the target table name is derived solely from the batch's record
count (`auto_table_<n>`), the nonempty load's first attempted statement is
the `CREATE TABLE` for exactly that name, and any two batches of equal
count — whatever their source or content — target the same table. -/
theorem auto_table_name_from_count :
    (∀ data : List DataRecord,
      autoTableName data = "auto_table_" ++ toString data.length) ∧
    (∀ d1 d2 : List DataRecord, d1.length = d2.length →
      autoTableName d1 = autoTableName d2) ∧
    (∀ (env : Env) (data : List DataRecord), ¬ data.length = 0 →
      ∃ tail err, LoadToPostgreSQL env data =
        (EffAction.dbExec (createTableQuery (autoTableName data) data) [] :: tail,
          err)) ∧
    autoTableName [[("customer_id", GoValue.vstr "1")]] =
      autoTableName [[("order_total", GoValue.vfloat)]] := by
  refine ⟨fun _ => rfl, fun d1 d2 h => by rw [autoTableName, autoTableName, h],
    ?_, rfl⟩
  intro env data h
  obtain ⟨err, herr⟩ := createTable_shape env (autoTableName data) data h
  unfold LoadToPostgreSQL
  rw [if_neg h]
  simp only [herr]
  cases err with
  | none => exact ⟨_, _, rfl⟩
  | some e => exact ⟨[], _, rfl⟩

/-- C8 witness: the collision part applied to two single-record batches with
different content, and the target-statement part applied at a concrete
batch. -/
theorem auto_table_name_from_count_witness :
    autoTableName [[("x", GoValue.vint 1)]] = autoTableName [[("y", GoValue.vnull)]] ∧
    ∃ tail err, LoadToPostgreSQL allOkEnv [[("x", GoValue.vint 1)]] =
      (EffAction.dbExec
        (createTableQuery (autoTableName [[("x", GoValue.vint 1)]])
          [[("x", GoValue.vint 1)]]) [] :: tail, err) :=
  ⟨auto_table_name_from_count.2.1 [[("x", GoValue.vint 1)]] [[("y", GoValue.vnull)]] rfl,
    auto_table_name_from_count.2.2.1 allOkEnv [[("x", GoValue.vint 1)]] (by decide)⟩

/-- C7: whenever the classifier's catalog read succeeds, the view synthesizer
issues exactly one statement, `CREATE OR REPLACE VIEW <t>_star_view AS
SELECT * FROM <t>`, and the issued statement is the same for every catalog
(hence for every dimensions/facts output of the classifier). -/
theorem star_view_full_projection :
    ∀ (env1 env2 : Env) (t : String) (cols1 cols2 : List (String × String)),
      env1.catalogOutcome t = Except.ok cols1 →
      env2.catalogOutcome t = Except.ok cols2 →
      (CreateStarSchemaViews env1 t).1 =
        [EffAction.dbExec ("CREATE OR REPLACE VIEW " ++ (t ++ "_star_view") ++
          " AS " ++ ("SELECT * FROM " ++ t)) []] ∧
      (CreateStarSchemaViews env1 t).1 = (CreateStarSchemaViews env2 t).1 := by
  have key : ∀ (env : Env) (t : String) (cols : List (String × String)),
      env.catalogOutcome t = Except.ok cols →
      (CreateStarSchemaViews env t).1 =
        [EffAction.dbExec ("CREATE OR REPLACE VIEW " ++ (t ++ "_star_view") ++
          " AS " ++ ("SELECT * FROM " ++ t)) []] := by
    intro env t cols h
    unfold CreateStarSchemaViews AnalyzeColumnsWithLLM
    rw [h]
    cases hex : env.execOutcome ("CREATE OR REPLACE VIEW " ++ (t ++ "_star_view") ++
        " AS " ++ ("SELECT * FROM " ++ t)) [] <;> simp [hex]
  intro env1 env2 t cols1 cols2 h1 h2
  exact ⟨key env1 t cols1 h1, (key env1 t cols1 h1).trans (key env2 t cols2 h2).symm⟩

/-- C7 witness: the projection statement at table `orders`, and trace
equality between an environment where the view DDL succeeds and one where
it fails (both catalogs readable). -/
theorem star_view_full_projection_witness :
    (CreateStarSchemaViews allOkEnv "orders").1 =
      [EffAction.dbExec ("CREATE OR REPLACE VIEW " ++ ("orders" ++ "_star_view") ++
        " AS " ++ ("SELECT * FROM " ++ "orders")) []] ∧
    (CreateStarSchemaViews allOkEnv "orders").1 =
      (CreateStarSchemaViews envViewFails "orders").1 :=
  star_view_full_projection allOkEnv envViewFails "orders" [] [] rfl rfl

/-- C5 counterexample: in an environment where exactly the view DDL fails,
creating the star view for the loaded table reports an error, yet the whole
load returns a nil error — the run completes successfully, so a
view-creation failure is not fatal as the claim requires. -/
theorem view_failure_still_loads_ok :
    (CreateStarSchemaViews envViewFails (autoTableName [[("a", GoValue.vint 1)]])).2 =
      some "failed to create star schema view: boom" ∧
    (LoadToPostgreSQL envViewFails [[("a", GoValue.vint 1)]]).2 = none :=
  ⟨rfl, rfl⟩

/-- C5 (amended): a view-creation failure is logged and ignored — whenever
table creation succeeds, the load reports success regardless of the view
statement's (and the per-record inserts') outcomes; only table creation can
make the load fail. -/
theorem view_failure_nonfatal :
    ∀ (env : Env) (data : List DataRecord),
      (CreateTableIfNotExists env (autoTableName data) data).2 = none →
      (LoadToPostgreSQL env data).2 = none := by
  intro env data h
  unfold LoadToPostgreSQL
  by_cases hlen : data.length = 0
  · rw [if_pos hlen]
  · rw [if_neg hlen]
    cases hc : CreateTableIfNotExists env (autoTableName data) data with
    | mk cActs cerr =>
      rw [hc] at h
      cases cerr with
      | some e => exact absurd h (by simp)
      | none => simp [hc]

/-- C5 witness: the amended claim applied in the environment where the view
DDL fails, on a concrete one-record batch whose table creation succeeds. -/
theorem view_failure_nonfatal_witness :
    (LoadToPostgreSQL envViewFails [[("b", GoValue.vstr "x")]]).2 = none :=
  view_failure_nonfatal envViewFails [[("b", GoValue.vstr "x")]] rfl

/-- C1 counterexample: with the object store unreachable, processing a batch
returns the MinIO failure and its action trace holds only the attempted
archive put — no database statement is ever attempted, so the warehouse load
is not attempted after an archive failure, contrary to the claim. -/
theorem minio_failure_aborts_before_load :
    ProcessETLFromFile envMinioFails (Except.ok [[("a", GoValue.vstr "1")]])
      "data.csv" =
      ([EffAction.minioPut "raw" "raw/raw_data.csv"],
        some "load to MinIO failed: unreachable") :=
  rfl

/-- C1 (amended): the two sinks are sequential, not independent — an archive
write failure aborts the run before any warehouse action is attempted (the
trace is exactly the failed put), while in the other direction the claim
holds: once the archive put succeeds it heads the trace regardless of how
the subsequent warehouse load fares, so a warehouse failure cannot undo it. -/
theorem etl_sink_ordering :
    ∀ (env : Env) (data : List DataRecord) (filePath : String),
      (∀ e, env.minioOutcome ("raw/" ++ ("raw_" ++ goBaseName filePath)) = some e →
        ProcessETLFromFile env (Except.ok data) filePath =
          ([EffAction.minioPut "raw" ("raw/" ++ ("raw_" ++ goBaseName filePath))],
            some ("load to MinIO failed: " ++ e))) ∧
      (env.minioOutcome ("raw/" ++ ("raw_" ++ goBaseName filePath)) = none →
        (ProcessETLFromFile env (Except.ok data) filePath).1 =
          EffAction.minioPut "raw" ("raw/" ++ ("raw_" ++ goBaseName filePath)) ::
            (LoadToPostgreSQL env (Transform data)).1) := by
  intro env data filePath
  constructor
  · intro e he
    unfold ProcessETLFromFile LoadToMinIO
    simp [he]
  · intro he
    unfold ProcessETLFromFile LoadToMinIO
    cases hp : LoadToPostgreSQL env (Transform data) with
    | mk pActs perr =>
      cases perr <;> simp [he, hp]

/-- C1 witness: the amended claim applied at concrete inputs — the failing
direction in the unreachable-object-store environment, the succeeding
direction in the all-success environment. -/
theorem etl_sink_ordering_witness :
    ProcessETLFromFile envMinioFails (Except.ok [[("b", GoValue.vint 2)]]) "x.csv" =
      ([EffAction.minioPut "raw" ("raw/" ++ ("raw_" ++ goBaseName "x.csv"))],
        some ("load to MinIO failed: " ++ "unreachable")) ∧
    (ProcessETLFromFile allOkEnv (Except.ok [[("b", GoValue.vint 2)]]) "x.csv").1 =
      EffAction.minioPut "raw" ("raw/" ++ ("raw_" ++ goBaseName "x.csv")) ::
        (LoadToPostgreSQL allOkEnv (Transform [[("b", GoValue.vint 2)]])).1 :=
  ⟨(etl_sink_ordering envMinioFails [[("b", GoValue.vint 2)]] "x.csv").1
      "unreachable" rfl,
    (etl_sink_ordering allOkEnv [[("b", GoValue.vint 2)]] "x.csv").2 rfl⟩
